import Mathlib

/-!
Shallow embedding of the transaction planning and execution core of the
`kit-plugins` repository: the compute-unit estimation logic, the
preflight decision logic, the concurrency limiter, the transaction
planners for both backends, the LiteSVM error normalizer, and the
`sendTransaction` convenience helper.

Each definition mirrors one source function; names follow the source.
-/

namespace KitPlugins

/-! ## Compute-budget sentinels (from `@solana-program/compute-budget`) -/

/-- The provisory compute-unit-limit sentinel (`PROVISORY_COMPUTE_UNIT_LIMIT`),
a placeholder value of `0` meaning "needs estimation". -/
def PROVISORY_COMPUTE_UNIT_LIMIT : Nat := 0

/-- The maximum compute-unit-limit sentinel (`MAX_COMPUTE_UNIT_LIMIT`),
`1_400_000`, also treated as needing estimation by the RPC executor. -/
def MAX_COMPUTE_UNIT_LIMIT : Nat := 1400000

/-! ## Instructions and transaction messages -/

/-- An instruction in a transaction message. The compute-budget
instructions relevant to the planner and executor are distinguished;
every other instruction is opaque (program address plus data). -/
inductive Instruction where
  | setComputeUnitLimit (units : Nat)
  | setComputeUnitPrice (microLamports : Nat)
  | other (programAddress : String) (data : List Nat)
deriving DecidableEq, Repr

/-- Whether an instruction is a `SetComputeUnitLimit` compute-budget
instruction. -/
def Instruction.isSetComputeUnitLimit : Instruction → Bool
  | .setComputeUnitLimit _ => true
  | _ => false

/-- A transaction message: a version, an optional fee payer (identified
by the signer's address), an optional blockhash lifetime binding, and an
ordered list of instructions. Before signing it is "unsigned"; signing
is modelled as the identity on the message content since signature
cryptography is an external collaborator. -/
structure TransactionMessage where
  version : Nat := 0
  feePayer : Option String := none
  lifetime : Option Nat := none
  instructions : List Instruction := []
deriving DecidableEq, Repr

/-- `createTransactionMessage ({ version })` from `@solana/kit`: an empty
message of the given version. -/
def createTransactionMessage (version : Nat) : TransactionMessage :=
  { version := version }

/-- `setTransactionMessageFeePayerSigner` from `@solana/kit`: returns a
new message with the fee payer set. -/
def setTransactionMessageFeePayerSigner (payer : String) (tx : TransactionMessage) :
    TransactionMessage :=
  { tx with feePayer := some payer }

/-- `appendTransactionMessageInstruction` from `@solana/kit`: returns a
new message with the instruction appended at the end. -/
def appendTransactionMessageInstruction (ix : Instruction) (tx : TransactionMessage) :
    TransactionMessage :=
  { tx with instructions := tx.instructions ++ [ix] }

/-- `setTransactionMessageLifetimeUsingBlockhash` from `@solana/kit`:
returns a new message bound to the given blockhash lifetime. -/
def setTransactionMessageLifetimeUsingBlockhash (blockhash : Nat) (tx : TransactionMessage) :
    TransactionMessage :=
  { tx with lifetime := some blockhash }

/-- Helper for `findSetComputeUnitLimitInstructionIndexAndUnits`: scan
the instruction list for the first `SetComputeUnitLimit` instruction,
returning its index and units. -/
def findSetComputeUnitLimitAux : List Instruction → Nat → Option (Nat × Nat)
  | [], _ => none
  | .setComputeUnitLimit u :: _, i => some (i, u)
  | _ :: rest, i => findSetComputeUnitLimitAux rest (i + 1)

/-- `findSetComputeUnitLimitInstructionIndexAndUnits` from
`@solana-program/compute-budget`: the index and units of the first
`SetComputeUnitLimit` instruction of the message, or `none` when the
message carries no such instruction. -/
def findSetComputeUnitLimitInstructionIndexAndUnits (tx : TransactionMessage) :
    Option (Nat × Nat) :=
  findSetComputeUnitLimitAux tx.instructions 0

/-- Helper for `updateOrAppendSetComputeUnitLimitInstruction`: rewrite
the units of the first `SetComputeUnitLimit` instruction, or append a
new one at the end when none is present. -/
def updateOrAppendSetComputeUnitLimitAux (units : Nat) : List Instruction → List Instruction
  | [] => [.setComputeUnitLimit units]
  | .setComputeUnitLimit _ :: rest => .setComputeUnitLimit units :: rest
  | ix :: rest => ix :: updateOrAppendSetComputeUnitLimitAux units rest

/-- `updateOrAppendSetComputeUnitLimitInstruction` from
`@solana-program/compute-budget`: set the compute-unit limit of the
message to `units`, rewriting the existing `SetComputeUnitLimit`
instruction or appending one. -/
def updateOrAppendSetComputeUnitLimitInstruction (units : Nat) (tx : TransactionMessage) :
    TransactionMessage :=
  { tx with instructions := updateOrAppendSetComputeUnitLimitAux units tx.instructions }

/-- `fillProvisorySetComputeUnitLimitInstruction` from
`@solana-program/compute-budget`: append a `SetComputeUnitLimit`
instruction with the provisory sentinel value when the message has no
`SetComputeUnitLimit` instruction yet; otherwise leave it unchanged. -/
def fillProvisorySetComputeUnitLimitInstruction (tx : TransactionMessage) :
    TransactionMessage :=
  if (findSetComputeUnitLimitInstructionIndexAndUnits tx).isSome then tx
  else appendTransactionMessageInstruction
    (.setComputeUnitLimit PROVISORY_COMPUTE_UNIT_LIMIT) tx

/-! ## Needs-estimation predicate (`rpc.ts`, `needsComputeUnitEstimation`) -/

/-- `needsComputeUnitEstimation` from
`kit-plugin-instruction-plan/src/rpc.ts`: estimation is needed when the
message has no `SetComputeUnitLimit` instruction, or when the present
value equals the provisory or the maximum sentinel. -/
def needsComputeUnitEstimation (transactionMessage : TransactionMessage) : Bool :=
  match findSetComputeUnitLimitInstructionIndexAndUnits transactionMessage with
  | none => true
  | some (_, units) =>
      units == PROVISORY_COMPUTE_UNIT_LIMIT || units == MAX_COMPUTE_UNIT_LIMIT

/-! ## Compute-unit estimation and patch (`rpc.ts`, `estimateAndSetComputeUnitLimit`) -/

/-- The outcome of the compute-unit estimation simulation performed by
`estimateComputeUnitLimitFactory` for one transaction message. A failed
simulation either carries the
`SOLANA_ERROR__TRANSACTION__FAILED_WHEN_SIMULATING_TO_ESTIMATE_COMPUTE_LIMIT`
code with the units consumed by the failed simulation in its context, or
is some other error (identified by an opaque code). -/
inductive SimError where
  | failedWhenSimulatingToEstimateComputeLimit (unitsConsumed : Nat)
  | otherError (code : Nat)
deriving DecidableEq, Repr

/-- The result of one estimation simulation: the estimated units on
success, or a `SimError` on failure. -/
abbrev EstimateResult := Except SimError Nat

/-- The embedding of `Math.ceil(estimatedUnits * 1.1)` from
`estimateAndSetComputeUnitLimit`: the 10% safety buffer applied to the
simulated units, i.e. the ceiling of `11 * u / 10`. -/
def ceilTimesElevenTenths (u : Nat) : Nat := (11 * u + 9) / 10

/-- `estimateAndSetComputeUnitLimit` from
`kit-plugin-instruction-plan/src/rpc.ts`. The estimator's outcome is
passed as a value (`estimateCULimit`). On success the buffered estimate
is written onto the message. On failure, when `skipPreflight` is set and
the error is the failed-when-simulating error, the units consumed by the
failed simulation are recovered and buffered the same way; otherwise the
error is rethrown. -/
def estimateAndSetComputeUnitLimit (transactionMessage : TransactionMessage)
    (estimateCULimit : EstimateResult) (skipPreflight : Bool) :
    Except SimError TransactionMessage :=
  match estimateCULimit with
  | .ok estimatedUnits =>
      .ok (updateOrAppendSetComputeUnitLimitInstruction
        (ceilTimesElevenTenths estimatedUnits) transactionMessage)
  | .error e =>
      match skipPreflight, e with
      | true, .failedWhenSimulatingToEstimateComputeLimit unitsConsumed =>
          .ok (updateOrAppendSetComputeUnitLimitInstruction
            (ceilTimesElevenTenths unitsConsumed) transactionMessage)
      | _, _ => .error e

/-! ## RPC transaction plan executor leaf (`rpc.ts`, `executeTransactionMessage`) -/

/-- One `sendAndConfirmTransaction` call issued by the RPC executor: the
signed transaction, the commitment level, and the `skipPreflight` flag
passed to the send. -/
structure SendCall where
  transaction : TransactionMessage
  commitment : String
  skipPreflight : Bool
deriving DecidableEq, Repr

/-- The observable trace of one `executeTransactionMessage` call of the
RPC executor: how many estimation simulations were run, which sends were
attempted, and the final result (the signed transaction, or the thrown
error). -/
structure ExecTrace where
  estimationSimulations : Nat
  sendCalls : List SendCall
  result : Except SimError TransactionMessage
deriving Repr

/-- `executeTransactionMessage` from the RPC executor in
`kit-plugin-instruction-plan/src/rpc.ts`: compute `needsCuEstimation`,
fetch the latest blockhash and bind it as the lifetime, estimate and
patch the compute-unit limit when needed, sign (modelled as the identity
on message content), and send with `commitment: confirmed` and
`skipPreflight: config.skipPreflight || needsCuEstimation`. The
estimation simulation outcome is passed as a value (`sim`). -/
def executeTransactionMessage (skipPreflightConfig : Bool) (latestBlockhash : Nat)
    (sim : EstimateResult) (transactionMessage : TransactionMessage) : ExecTrace :=
  let needsCuEstimation := needsComputeUnitEstimation transactionMessage
  let txWithLifetime :=
    setTransactionMessageLifetimeUsingBlockhash latestBlockhash transactionMessage
  let estimated : Except SimError TransactionMessage :=
    if needsCuEstimation then
      estimateAndSetComputeUnitLimit txWithLifetime sim skipPreflightConfig
    else .ok txWithLifetime
  match estimated with
  | .error e =>
      { estimationSimulations := if needsCuEstimation then 1 else 0,
        sendCalls := [],
        result := .error e }
  | .ok signedTransaction =>
      { estimationSimulations := if needsCuEstimation then 1 else 0,
        sendCalls := [{ transaction := signedTransaction,
                        commitment := "confirmed",
                        skipPreflight := skipPreflightConfig || needsCuEstimation }],
        result := .ok signedTransaction }

/-! ## Planner message construction (`transaction-planner.ts` and `rpc.ts`) -/

/-- The `createTransactionMessage` callback of the LiteSVM transaction
planner (`kit-plugin-litesvm/src/transaction-planner.ts`, inside
`litesvmTransactionPlanner`): start from an empty version-0 message, set
the fee payer, fill the provisory compute-unit-limit instruction, and
append the priority-fee instruction when configured. -/
def litesvmPlannerCreateTransactionMessage (payer : String) (priorityFees : Option Nat) :
    TransactionMessage :=
  let tx := createTransactionMessage 0
  let tx := setTransactionMessageFeePayerSigner payer tx
  let tx := fillProvisorySetComputeUnitLimitInstruction tx
  match priorityFees with
  | some microLamports =>
      appendTransactionMessageInstruction (.setComputeUnitPrice microLamports) tx
  | none => tx

/-- The `createTransactionMessage` callback of the RPC planner built by
`defaultTransactionPlannerAndExecutorFromRpc`
(`kit-plugin-instruction-plan/src/rpc.ts`). It is textually identical to
the LiteSVM planner's callback. -/
def rpcPlannerCreateTransactionMessage (payer : String) (priorityFees : Option Nat) :
    TransactionMessage :=
  litesvmPlannerCreateTransactionMessage payer priorityFees

/-! ## LiteSVM error normalizer (`kit-plugin-litesvm/src/transaction-error.ts`) -/

/-- An instruction-level LiteSVM error: a fieldless enum variant
(a plain number at runtime), an `InstructionErrorCustom` with a code, or
an `InstructionErrorBorshIo` with a message. -/
inductive LiteSvmInstructionError where
  | fieldless (ordinal : Nat)
  | custom (code : Nat)
  | borshIo (msg : String)
deriving DecidableEq, Repr

/-- A transaction-level LiteSVM error: a fieldless enum variant (a plain
number at runtime) or one of the class-based parameterized variants. -/
inductive LiteSvmTransactionError where
  | fieldless (ordinal : Nat)
  | instructionError (index : Nat) (err : LiteSvmInstructionError)
  | duplicateInstruction (index : Nat)
  | insufficientFundsForRent (accountIndex : Nat)
  | programExecutionTemporarilyRestricted (accountIndex : Nat)
deriving DecidableEq, Repr

/-- The ordered names of the `TransactionErrorFieldless` enum variants
(`TRANSACTION_ERROR_NAMES`); each index corresponds to the enum's
numeric value. -/
def TRANSACTION_ERROR_NAMES : List String := [
  "AccountInUse",
  "AccountLoadedTwice",
  "AccountNotFound",
  "ProgramAccountNotFound",
  "InsufficientFundsForFee",
  "InvalidAccountForFee",
  "AlreadyProcessed",
  "BlockhashNotFound",
  "CallChainTooDeep",
  "MissingSignatureForFee",
  "InvalidAccountIndex",
  "SignatureFailure",
  "InvalidProgramForExecution",
  "SanitizeFailure",
  "ClusterMaintenance",
  "AccountBorrowOutstanding",
  "WouldExceedMaxBlockCostLimit",
  "UnsupportedVersion",
  "InvalidWritableAccount",
  "WouldExceedMaxAccountCostLimit",
  "WouldExceedAccountDataBlockLimit",
  "TooManyAccountLocks",
  "AddressLookupTableNotFound",
  "InvalidAddressLookupTableOwner",
  "InvalidAddressLookupTableData",
  "InvalidAddressLookupTableIndex",
  "InvalidRentPayingAccount",
  "WouldExceedMaxVoteCostLimit",
  "WouldExceedAccountDataTotalLimit",
  "MaxLoadedAccountsDataSizeExceeded",
  "ResanitizationNeeded",
  "InvalidLoadedAccountsDataSizeLimit",
  "UnbalancedTransaction",
  "ProgramCacheHitMaxLimit",
  "CommitCancelled"]

/-- The ordered names of the `InstructionErrorFieldless` enum variants
(`INSTRUCTION_ERROR_NAMES`); each index corresponds to the enum's
numeric value. -/
def INSTRUCTION_ERROR_NAMES : List String := [
  "GenericError",
  "InvalidArgument",
  "InvalidInstructionData",
  "InvalidAccountData",
  "AccountDataTooSmall",
  "InsufficientFunds",
  "IncorrectProgramId",
  "MissingRequiredSignature",
  "AccountAlreadyInitialized",
  "UninitializedAccount",
  "UnbalancedInstruction",
  "ModifiedProgramId",
  "ExternalAccountLamportSpend",
  "ExternalAccountDataModified",
  "ReadonlyLamportChange",
  "ReadonlyDataModified",
  "DuplicateAccountIndex",
  "ExecutableModified",
  "RentEpochModified",
  "NotEnoughAccountKeys",
  "AccountDataSizeChanged",
  "AccountNotExecutable",
  "AccountBorrowFailed",
  "AccountBorrowOutstanding",
  "DuplicateAccountOutOfSync",
  "InvalidError",
  "ExecutableDataModified",
  "ExecutableLamportChange",
  "ExecutableAccountNotRentExempt",
  "UnsupportedProgramId",
  "CallDepth",
  "MissingAccount",
  "ReentrancyNotAllowed",
  "MaxSeedLengthExceeded",
  "InvalidSeeds",
  "InvalidRealloc",
  "ComputationalBudgetExceeded",
  "PrivilegeEscalation",
  "ProgramEnvironmentSetupFailure",
  "ProgramFailedToComplete",
  "ProgramFailedToCompile",
  "Immutable",
  "IncorrectAuthority",
  "AccountNotRentExempt",
  "InvalidAccountOwner",
  "ArithmeticOverflow",
  "UnsupportedSysvar",
  "IllegalOwner",
  "MaxAccountsDataAllocationsExceeded",
  "MaxAccountsExceeded",
  "MaxInstructionTraceLengthExceeded",
  "BuiltinProgramsMustConsumeComputeUnits",
  "BorshIoError"]

/-- The converted shape of an instruction-level error, i.e. the JSON
encoding expected by `getSolanaErrorFromTransactionError`: a plain
string for fieldless variants, or the parameterized variants
`Custom(code)` and `BorshIoError(msg)`. -/
inductive InstructionErrorRepr where
  | name (s : String)
  | custom (code : Nat)
  | borshIoError (msg : String)
deriving DecidableEq, Repr

/-- The converted shape of a transaction-level error, i.e. the JSON
encoding expected by `getSolanaErrorFromTransactionError`. -/
inductive TransactionErrorRepr where
  | name (s : String)
  | instructionError (index : Nat) (inner : InstructionErrorRepr)
  | duplicateInstruction (index : Nat)
  | insufficientFundsForRent (accountIndex : Nat)
  | programExecutionTemporarilyRestricted (accountIndex : Nat)
deriving DecidableEq, Repr

/-- `convertInstructionError` from
`kit-plugin-litesvm/src/transaction-error.ts`: fieldless ordinals are
looked up in `INSTRUCTION_ERROR_NAMES` with an `Unknown(n)` fallback for
out-of-range ordinals; `InstructionErrorCustom` and
`InstructionErrorBorshIo` map to the parameterized shapes. -/
def convertInstructionError : LiteSvmInstructionError → InstructionErrorRepr
  | .fieldless n =>
      .name ((INSTRUCTION_ERROR_NAMES.get? n).getD ("Unknown(" ++ toString n ++ ")"))
  | .custom code => .custom code
  | .borshIo msg => .borshIoError msg

/-- `convertTransactionError` from
`kit-plugin-litesvm/src/transaction-error.ts`: fieldless ordinals are
looked up in `TRANSACTION_ERROR_NAMES` with an `Unknown(n)` fallback for
out-of-range ordinals; `TransactionErrorInstructionError` nests the
index and the converted inner instruction error; the remaining
class-based variants map to their parameterized shapes. -/
def convertTransactionError : LiteSvmTransactionError → TransactionErrorRepr
  | .fieldless n =>
      .name ((TRANSACTION_ERROR_NAMES.get? n).getD ("Unknown(" ++ toString n ++ ")"))
  | .instructionError index err => .instructionError index (convertInstructionError err)
  | .duplicateInstruction index => .duplicateInstruction index
  | .insufficientFundsForRent accountIndex => .insufficientFundsForRent accountIndex
  | .programExecutionTemporarilyRestricted accountIndex =>
      .programExecutionTemporarilyRestricted accountIndex

/-- A structured `SolanaError` carrying a transaction error, as produced
by `getSolanaErrorFromTransactionError` from `@solana/kit` — the shared
output taxonomy both backends feed into. -/
structure SolanaError where
  transactionError : TransactionErrorRepr
deriving DecidableEq, Repr

/-- `getSolanaErrorFromTransactionError` from `@solana/kit` (external
collaborator): wraps the converted transaction error into the structured
`SolanaError` shape shared by both backends. -/
def getSolanaErrorFromTransactionError (e : TransactionErrorRepr) : SolanaError :=
  ⟨e⟩

/-- `getSolanaErrorFromLiteSvmFailure` from
`kit-plugin-litesvm/src/transaction-error.ts`: read the error out of the
failed transaction result (its `err()` accessor), convert it, and wrap
it into a `SolanaError`. -/
def getSolanaErrorFromLiteSvmFailure (failedErr : LiteSvmTransactionError) : SolanaError :=
  getSolanaErrorFromTransactionError (convertTransactionError failedErr)

/-! ## LiteSVM transaction plan executor leaf
(`kit-plugin-litesvm/src/transaction-plan-executor.ts`) -/

/-- The result of LiteSVM's `sendTransaction`: `TransactionMetadata` on
success or `FailedTransactionMetadata` on failure. The failure shape
carries the transaction error reachable through its `err()` accessor. -/
inductive LiteSvmSendResult where
  | success (computeUnitsConsumed : Nat)
  | failure (err : LiteSvmTransactionError)
deriving DecidableEq, Repr

/-- `isFailedTransaction` from the LiteSVM executor: discriminates the
send result by the presence of the `err` accessor method (a duck-typed
check in the source, because only the failure shape has an `err`
method); in the embedding, the tagged union makes this the `failure`
discriminator. -/
def isFailedTransaction : LiteSvmSendResult → Bool
  | .failure _ => true
  | .success _ => false

/-- The execution context the LiteSVM executor annotates: the message
with its lifetime set, the signed transaction, and the raw simulator
metadata of the send. -/
structure LiteSvmExecContext where
  message : Option TransactionMessage := none
  transaction : Option TransactionMessage := none
  transactionMetadata : Option LiteSvmSendResult := none
deriving Repr

/-- `executeTransactionMessage` of the LiteSVM executor
(`litesvmTransactionPlanExecutor`): obtain the blockhash lifetime from
the simulator, bind it, sign (modelled as the identity on message
content), send, store the raw metadata on the context, and throw the
normalized `SolanaError` when the send result is a failed transaction.
The simulator's send outcome is passed as a value (`sendResult`). -/
def litesvmExecuteTransactionMessage (latestBlockhash : Nat)
    (sendResult : LiteSvmSendResult) (transactionMessage : TransactionMessage) :
    LiteSvmExecContext × Except SolanaError TransactionMessage :=
  let txWithLifetime :=
    setTransactionMessageLifetimeUsingBlockhash latestBlockhash transactionMessage
  let signedTransaction := txWithLifetime
  let context : LiteSvmExecContext :=
    { message := some txWithLifetime,
      transaction := some signedTransaction,
      transactionMetadata := some sendResult }
  match sendResult with
  | .failure err => (context, .error (getSolanaErrorFromLiteSvmFailure err))
  | .success _ => (context, .ok signedTransaction)

/-! ## Concurrency limiter (`rpc.ts`, `limitFunction`) -/

/-- The mutable state of `limitFunction`: the set of in-flight calls
(as a list of call identifiers, `running` in the source being its
length), the FIFO queue of pending calls, and — for specification
purposes — the history of started calls and of all arrived calls, both
in order. -/
structure LimiterState where
  running : List Nat := []
  queue : List Nat := []
  started : List Nat := []
  arrived : List Nat := []
deriving DecidableEq, Repr

/-- The initial state of a fresh `limitFunction` wrapper: nothing
running, nothing queued. -/
def limiterInit : LimiterState := {}

/-- The `process()` function of `limitFunction`: do nothing when already
running at max concurrency or when the queue is empty; otherwise
increment `running` and start the call shifted from the front of the
queue. -/
def processStep (maxConcurrency : Nat) (s : LimiterState) : LimiterState :=
  if s.running.length ≥ maxConcurrency then s
  else
    match s.queue with
    | [] => s
    | id :: rest =>
        { s with running := s.running ++ [id], queue := rest,
                 started := s.started ++ [id] }

/-- An observable event of the limiter: a new call of the wrapped
function arrives, or an in-flight invocation completes (resolves when
`success` is true, rejects otherwise). -/
inductive LimiterEvent where
  | call (id : Nat)
  | complete (id : Nat) (success : Bool)
deriving DecidableEq, Repr

/-- One atomic step of `limitFunction` in the single-threaded event
loop. A `call` pushes onto the queue and runs `process()`. A `complete`
(the `.finally` handler — entered on resolution and on rejection alike)
removes the invocation from the running set, decrements `running`, and
runs `process()`. A completion of a call that is not in flight is not a
valid event (`none`). -/
def limiterStep (maxConcurrency : Nat) (s : LimiterState) :
    LimiterEvent → Option LimiterState
  | .call id =>
      some (processStep maxConcurrency
        { s with queue := s.queue ++ [id], arrived := s.arrived ++ [id] })
  | .complete id _success =>
      if id ∈ s.running then
        some (processStep maxConcurrency { s with running := s.running.erase id })
      else none

/-- Run the limiter over a sequence of events from a given state,
failing on an invalid event. -/
def limiterRun (maxConcurrency : Nat) : LimiterState → List LimiterEvent → Option LimiterState
  | s, [] => some s
  | s, e :: es =>
      match limiterStep maxConcurrency s e with
      | none => none
      | some next => limiterRun maxConcurrency next es

/-! ## Plans, results and the send helper (`kit-plugin-instruction-plan/src/core.ts`) -/

/-- An instruction plan: a tree over instructions with `single`,
`sequential` and `parallel` node kinds (the dynamic message-packer
variant is opaque external input and not needed by the claims). -/
inductive InstructionPlan where
  | single (instruction : Instruction)
  | sequentialNode (plans : List InstructionPlan)
  | parallelNode (plans : List InstructionPlan)

/-- A transaction plan: the same tree shape with transaction-message
leaves, as produced by a transaction planner. -/
inductive TransactionPlan where
  | single (message : TransactionMessage)
  | sequentialNode (plans : List TransactionPlan)
  | parallelNode (plans : List TransactionPlan)

/-- The status of a single (leaf) transaction plan result. -/
inductive SingleResultStatus where
  | successful
  | failed (error : SolanaError)
  | canceled
deriving DecidableEq, Repr

/-- A transaction plan result: mirrors the plan's tree shape; each leaf
is successful, failed or canceled. -/
inductive TransactionPlanResult where
  | single (message : TransactionMessage) (status : SingleResultStatus)
  | sequentialNode (results : List TransactionPlanResult)
  | parallelNode (results : List TransactionPlanResult)

/-- The errors thrown along the send helper's control flow: a failed
assertion (`assertIsSingleTransactionPlan`,
`assertIsSuccessfulSingleTransactionPlanResult`, missing capability,
missing payer) or a structured execution error. -/
inductive ClientError where
  | assertionFailed (msg : String)
  | missingFeePayer
  | executionError (e : SolanaError)
deriving DecidableEq, Repr

/-- `assertIsSingleTransactionPlan` from `@solana/kit` (external
collaborator): passes the plan through when it is a `single` plan and
throws otherwise. -/
def assertIsSingleTransactionPlan :
    TransactionPlan → Except ClientError TransactionPlan
  | TransactionPlan.single m => .ok (TransactionPlan.single m)
  | _ => .error (.assertionFailed "Expected a single transaction plan")

/-- `assertIsSuccessfulSingleTransactionPlanResult` from `@solana/kit`
(external collaborator): passes the result through when it is a single
result with successful status — yielding the successful single result —
and throws otherwise. -/
def assertIsSuccessfulSingleTransactionPlanResult :
    TransactionPlanResult → Except ClientError TransactionMessage
  | TransactionPlanResult.single m .successful => .ok m
  | _ => .error (.assertionFailed "Expected a successful single transaction plan result")

/-- The non-message input shapes accepted by `sendTransaction`: a single
instruction, an instruction array, or an instruction plan. -/
inductive Instructionish where
  | one (instruction : Instruction)
  | many (instructions : List Instruction)
  | plan (p : InstructionPlan)

/-- `sequentialInstructionPlan` from `@solana/kit`: wrap a list of
instructions as a sequential plan of single leaves. -/
def sequentialInstructionPlan (instructions : List Instruction) : InstructionPlan :=
  .sequentialNode (instructions.map .single)

/-- `singleInstructionPlan` from `@solana/kit`. -/
def singleInstructionPlan (instruction : Instruction) : InstructionPlan :=
  .single instruction

/-- `singleTransactionPlan` from `@solana/kit`. -/
def singleTransactionPlan (message : TransactionMessage) : TransactionPlan :=
  .single message

/-- `getInstructionPlan` from `core.ts`: an input that already has a
`kind` is a plan; an array becomes a sequential plan; a bare instruction
becomes a single plan. -/
def getInstructionPlan : Instructionish → InstructionPlan
  | .plan p => p
  | .many instructions => sequentialInstructionPlan instructions
  | .one instruction => singleInstructionPlan instruction

/-- The full input union of `sendTransaction`: a pre-built transaction
message, or one of the instruction shapes. -/
inductive SendTransactionInput where
  | message (m : TransactionMessage)
  | instructions (x : Instructionish)

/-- `getTransactionMessageWithFeePayer` from `core.ts`: a message that
already carries a fee payer is returned unchanged; otherwise the
client's payer is attached when present; otherwise an error is thrown. -/
def getTransactionMessageWithFeePayer (input : TransactionMessage)
    (payer : Option String) : Except ClientError TransactionMessage :=
  match input.feePayer with
  | some _ => .ok input
  | none =>
      match payer with
      | some p => .ok (setTransactionMessageFeePayerSigner p input)
      | none => .error .missingFeePayer

/-- `sendTransaction` from the `sendTransactions()` plugin in `core.ts`.
The client's planner and executor are passed as function values. A
message input is wrapped as a single transaction plan (after fee-payer
resolution); other inputs are planned and the plan asserted singular.
The execution result is asserted to be a successful single result, which
is the only value ever returned. -/
def sendTransaction (clientPayer : Option String)
    (transactionPlanner : InstructionPlan → TransactionPlan)
    (transactionPlanExecutor : TransactionPlan → TransactionPlanResult)
    (input : SendTransactionInput) : Except ClientError TransactionMessage := do
  let transactionPlan ←
    match input with
    | .message m => do
        let m' ← getTransactionMessageWithFeePayer m clientPayer
        pure (singleTransactionPlan m')
    | .instructions x => do
        let instructionPlan := getInstructionPlan x
        let tp := transactionPlanner instructionPlan
        assertIsSingleTransactionPlan tp
  let result := transactionPlanExecutor transactionPlan
  assertIsSuccessfulSingleTransactionPlanResult result

/-! ## Plugin installation (`rpc.ts` and `transaction-planner.ts`) -/

/-- The client capabilities relevant to installing the default RPC
planner-and-executor plugin. -/
structure ClientState where
  payer : Option String := none
  hasRpc : Bool := false
  hasRpcSubscriptions : Bool := false
deriving DecidableEq, Repr

/-- The configuration of `defaultTransactionPlannerAndExecutorFromRpc`. -/
structure RpcPlannerExecutorConfig where
  maxConcurrency : Option Nat := none
  payer : Option String := none
  priorityFees : Option Nat := none
  skipPreflight : Option Bool := none
deriving DecidableEq, Repr

/-- The capabilities produced by a successful installation of the
default RPC planner-and-executor plugin: the resolved payer and options
that parameterize the planner and executor closures. -/
structure InstalledPlannerAndExecutor where
  payer : String
  priorityFees : Option Nat
  skipPreflight : Bool
  maxConcurrency : Nat
deriving DecidableEq, Repr

/-- The synchronous body of `defaultTransactionPlannerAndExecutorFromRpc`
applied to a client (`rpc.ts`): check the RPC capabilities, resolve the
payer as `config.payer ?? client.payer`, and throw synchronously when no
payer is available; on success the planner and executor closures are
created from the resolved values. -/
def defaultTransactionPlannerAndExecutorFromRpc (config : RpcPlannerExecutorConfig)
    (client : ClientState) : Except ClientError InstalledPlannerAndExecutor :=
  if ¬(client.hasRpc ∧ client.hasRpcSubscriptions) then
    .error (.assertionFailed
      "A RPC instance with subscriptions is required on the client")
  else
    match config.payer.orElse fun _ => client.payer with
    | none =>
        .error (.assertionFailed
          "A payer is required to create the default transaction planner and executor")
    | some payer =>
        .ok { payer := payer, priorityFees := config.priorityFees,
              skipPreflight := config.skipPreflight.getD false,
              maxConcurrency := config.maxConcurrency.getD 10 }

/-- The synchronous body of `litesvmTransactionPlanner` applied to a
client (`kit-plugin-litesvm/src/transaction-planner.ts`): resolve the
payer as `config.payer ?? client.payer` and throw synchronously when no
payer is available; on success the planner closure is created from the
resolved payer. -/
def litesvmTransactionPlannerInstall (configPayer : Option String)
    (clientPayer : Option String) : Except ClientError String :=
  match configPayer.orElse fun _ => clientPayer with
  | none =>
      .error (.assertionFailed
        "A payer is required to create the LiteSVM transaction planner")
  | some payer => .ok payer

/-! ## Supporting lemmas -/

/-- After `updateOrAppendSetComputeUnitLimitAux`, the first
`SetComputeUnitLimit` instruction of the list carries the new units. -/
lemma findAux_updateAux (v : Nat) :
    ∀ (l : List Instruction) (i : Nat),
      ∃ j, findSetComputeUnitLimitAux (updateOrAppendSetComputeUnitLimitAux v l) i
        = some (j, v)
  | [], i => ⟨i, rfl⟩
  | .setComputeUnitLimit _ :: _, i => ⟨i, rfl⟩
  | .setComputeUnitPrice _ :: rest, i => by
      simpa [updateOrAppendSetComputeUnitLimitAux, findSetComputeUnitLimitAux]
        using findAux_updateAux v rest (i + 1)
  | .other _ _ :: rest, i => by
      simpa [updateOrAppendSetComputeUnitLimitAux, findSetComputeUnitLimitAux]
        using findAux_updateAux v rest (i + 1)

/-- After `updateOrAppendSetComputeUnitLimitInstruction`, the message's
compute-unit limit is the new units value. -/
lemma find_updateOrAppend (v : Nat) (tx : TransactionMessage) :
    ∃ j, findSetComputeUnitLimitInstructionIndexAndUnits
        (updateOrAppendSetComputeUnitLimitInstruction v tx) = some (j, v) :=
  findAux_updateAux v tx.instructions 0

/-- The scan finds no `SetComputeUnitLimit` instruction exactly when the
list has none. -/
lemma findAux_eq_none_iff :
    ∀ (l : List Instruction) (i : Nat),
      findSetComputeUnitLimitAux l i = none
        ↔ ∀ ix ∈ l, ix.isSetComputeUnitLimit = false
  | [], i => by simp [findSetComputeUnitLimitAux]
  | .setComputeUnitLimit u :: rest, i => by
      simp [findSetComputeUnitLimitAux, Instruction.isSetComputeUnitLimit]
  | .setComputeUnitPrice p :: rest, i => by
      simp [findSetComputeUnitLimitAux, Instruction.isSetComputeUnitLimit,
        findAux_eq_none_iff rest (i + 1)]
  | .other a d :: rest, i => by
      simp [findSetComputeUnitLimitAux, Instruction.isSetComputeUnitLimit,
        findAux_eq_none_iff rest (i + 1)]

/-- Setting the blockhash lifetime leaves the instruction list — and
hence the compute-unit-limit lookup — unchanged. -/
lemma find_setLifetime (bh : Nat) (tx : TransactionMessage) :
    findSetComputeUnitLimitInstructionIndexAndUnits
        (setTransactionMessageLifetimeUsingBlockhash bh tx)
      = findSetComputeUnitLimitInstructionIndexAndUnits tx := rfl

/-- Setting the blockhash lifetime does not change whether estimation is
needed. -/
lemma needs_setLifetime (bh : Nat) (tx : TransactionMessage) :
    needsComputeUnitEstimation (setTransactionMessageLifetimeUsingBlockhash bh tx)
      = needsComputeUnitEstimation tx := rfl

/-! ## Claim C3 -/

/-- C3: the needs-estimation predicate holds iff the message contains no
compute-unit-limit instruction, or the present units equal the provisory
sentinel, or they equal the maximum sentinel; and when an explicit
(non-sentinel, non-maximum) limit is present the predicate is false and
the RPC executor leaf performs no simulation. -/
theorem needsComputeUnitEstimation_iff (tx : TransactionMessage) :
    (needsComputeUnitEstimation tx = true ↔
      ((∀ ix ∈ tx.instructions, ix.isSetComputeUnitLimit = false) ∨
        (∃ i, findSetComputeUnitLimitInstructionIndexAndUnits tx
            = some (i, PROVISORY_COMPUTE_UNIT_LIMIT)) ∨
        (∃ i, findSetComputeUnitLimitInstructionIndexAndUnits tx
            = some (i, MAX_COMPUTE_UNIT_LIMIT)))) ∧
    (∀ i u, findSetComputeUnitLimitInstructionIndexAndUnits tx = some (i, u) →
      u ≠ PROVISORY_COMPUTE_UNIT_LIMIT → u ≠ MAX_COMPUTE_UNIT_LIMIT →
      needsComputeUnitEstimation tx = false ∧
      ∀ skip bh sim,
        (executeTransactionMessage skip bh sim tx).estimationSimulations = 0) := by
  constructor
  · constructor
    · intro h
      rcases hfind : findSetComputeUnitLimitInstructionIndexAndUnits tx with _ | ⟨i, u⟩
      · exact Or.inl ((findAux_eq_none_iff tx.instructions 0).mp hfind)
      · unfold needsComputeUnitEstimation at h
        rw [hfind] at h
        simp only [Bool.or_eq_true, beq_iff_eq] at h
        rcases h with h | h
        · exact Or.inr (Or.inl ⟨i, by rw [h]⟩)
        · exact Or.inr (Or.inr ⟨i, by rw [h]⟩)
    · intro h
      unfold needsComputeUnitEstimation
      rcases h with h | ⟨i, h⟩ | ⟨i, h⟩
      · have hn : findSetComputeUnitLimitInstructionIndexAndUnits tx = none :=
          (findAux_eq_none_iff tx.instructions 0).mpr h
        rw [hn]
      · rw [h]; simp
      · rw [h]; simp
  · intro i u hfind h0 hmax
    have hfalse : needsComputeUnitEstimation tx = false := by
      unfold needsComputeUnitEstimation
      rw [hfind]
      simp [h0, hmax]
    refine ⟨hfalse, fun skip bh sim => ?_⟩
    simp [executeTransactionMessage, hfalse]

/-- Witness for C3 at a concrete message with an explicit limit of
`5000` units. -/
theorem needsComputeUnitEstimation_iff_witness :
    needsComputeUnitEstimation
        { instructions := [Instruction.setComputeUnitLimit 5000] } = false ∧
    (executeTransactionMessage false 7 (.ok 100)
        { instructions := [Instruction.setComputeUnitLimit 5000] }).estimationSimulations
      = 0 := by
  have h := (needsComputeUnitEstimation_iff
      { instructions := [Instruction.setComputeUnitLimit 5000] }).2
      0 5000 rfl (by decide) (by decide)
  exact ⟨h.1, h.2 false 7 (.ok 100)⟩

/-! ## Claim C5 -/

/-- C5 counterexample: the message built by the LiteSVM planner's
`createTransactionMessage` callback (for a concrete payer and no
priority fees) does contain a compute-unit-limit instruction with the
provisory sentinel value, contradicting the claim that none is present. -/
theorem litesvmPlanner_provisory_counterexample :
    Instruction.setComputeUnitLimit PROVISORY_COMPUTE_UNIT_LIMIT
      ∈ (litesvmPlannerCreateTransactionMessage "payer" none).instructions := by
  decide

/-- C5 amended: every message built by the LiteSVM planner's
`createTransactionMessage` callback contains a compute-unit-limit
instruction with the provisory sentinel value (the planner calls
`fillProvisorySetComputeUnitLimitInstruction` on an empty message). -/
theorem litesvmPlanner_adds_provisory (payer : String) (priorityFees : Option Nat) :
    Instruction.setComputeUnitLimit PROVISORY_COMPUTE_UNIT_LIMIT
      ∈ (litesvmPlannerCreateTransactionMessage payer priorityFees).instructions ∧
    ∃ i, findSetComputeUnitLimitInstructionIndexAndUnits
        (litesvmPlannerCreateTransactionMessage payer priorityFees)
      = some (i, PROVISORY_COMPUTE_UNIT_LIMIT) := by
  cases priorityFees with
  | none =>
      refine ⟨?_, 0, rfl⟩
      simp [litesvmPlannerCreateTransactionMessage, createTransactionMessage,
        setTransactionMessageFeePayerSigner, fillProvisorySetComputeUnitLimitInstruction,
        findSetComputeUnitLimitInstructionIndexAndUnits, findSetComputeUnitLimitAux,
        appendTransactionMessageInstruction]
  | some fees =>
      refine ⟨?_, 0, rfl⟩
      simp [litesvmPlannerCreateTransactionMessage, createTransactionMessage,
        setTransactionMessageFeePayerSigner, fillProvisorySetComputeUnitLimitInstruction,
        findSetComputeUnitLimitInstructionIndexAndUnits, findSetComputeUnitLimitAux,
        appendTransactionMessageInstruction]

/-- Witness for the amended C5 at a concrete payer and priority fee. -/
theorem litesvmPlanner_adds_provisory_witness :
    Instruction.setComputeUnitLimit PROVISORY_COMPUTE_UNIT_LIMIT
      ∈ (litesvmPlannerCreateTransactionMessage "payer" (some 5)).instructions :=
  (litesvmPlanner_adds_provisory "payer" (some 5)).1

/-! ## Claim C10 -/

/-- C10: the LiteSVM error conversion functions are total on numeric
ordinals — every fieldless ordinal outside the range of the fixed lookup
tables converts to the string `Unknown(n)` rather than failing; the
tables have 35 and 53 entries respectively. -/
theorem convert_unknown_ordinal_total :
    (∀ n, TRANSACTION_ERROR_NAMES.length ≤ n →
      convertTransactionError (.fieldless n)
        = .name ("Unknown(" ++ toString n ++ ")")) ∧
    (∀ n, INSTRUCTION_ERROR_NAMES.length ≤ n →
      convertInstructionError (.fieldless n)
        = .name ("Unknown(" ++ toString n ++ ")")) ∧
    TRANSACTION_ERROR_NAMES.length = 35 ∧
    INSTRUCTION_ERROR_NAMES.length = 53 := by
  refine ⟨fun n h => ?_, fun n h => ?_, by decide, by decide⟩
  · simp [convertTransactionError, List.getElem?_len_le h]
  · simp [convertInstructionError, List.getElem?_len_le h]

/-- Witness for C10 at the first out-of-range ordinal of each table. -/
theorem convert_unknown_ordinal_total_witness :
    convertTransactionError (.fieldless 35)
      = .name ("Unknown(" ++ toString 35 ++ ")") ∧
    convertInstructionError (.fieldless 53)
      = .name ("Unknown(" ++ toString 53 ++ ")") :=
  ⟨convert_unknown_ordinal_total.1 35 (by decide),
   convert_unknown_ordinal_total.2.1 53 (by decide)⟩

/-! ## Claim C6 -/

/-- C6: when the LiteSVM send returns a failed result, the executor
throws the structured error obtained by converting the simulator's error
through the fixed ordinal-to-name tables and wrapping it with
`getSolanaErrorFromTransactionError` — the shared structured-error
constructor: fieldless transaction ordinals map to the name at their
index (ordinal 2 to `AccountNotFound`), instruction errors nest as an
(index, inner-error) pair, and the parameterized variants map to
`Custom(code)` and `BorshIoError(msg)`. -/
theorem litesvm_failure_error_normalization :
    (∀ bh msg e,
      (litesvmExecuteTransactionMessage bh (.failure e) msg).2
        = .error (getSolanaErrorFromTransactionError (convertTransactionError e))) ∧
    (∀ n s, TRANSACTION_ERROR_NAMES.get? n = some s →
      convertTransactionError (.fieldless n) = .name s) ∧
    convertTransactionError (.fieldless 2) = .name "AccountNotFound" ∧
    (∀ i e, convertTransactionError (.instructionError i e)
      = .instructionError i (convertInstructionError e)) ∧
    (∀ n s, INSTRUCTION_ERROR_NAMES.get? n = some s →
      convertInstructionError (.fieldless n) = .name s) ∧
    (∀ c, convertInstructionError (.custom c) = .custom c) ∧
    (∀ m, convertInstructionError (.borshIo m) = .borshIoError m) := by
  refine ⟨fun bh msg e => rfl, fun n s h => ?_, by decide, fun i e => rfl,
    fun n s h => ?_, fun c => rfl, fun m => rfl⟩
  · rw [List.get?_eq_getElem?] at h
    simp [convertTransactionError, List.get?_eq_getElem?, h]
  · rw [List.get?_eq_getElem?] at h
    simp [convertInstructionError, List.get?_eq_getElem?, h]

/-- Witness for C6 at ordinal 2 (`AccountNotFound`) and a concrete
failed execution. -/
theorem litesvm_failure_error_normalization_witness :
    convertTransactionError (.fieldless 2) = .name "AccountNotFound" ∧
    (litesvmExecuteTransactionMessage 0 (.failure (.fieldless 2)) {}).2
      = .error (getSolanaErrorFromTransactionError (.name "AccountNotFound")) := by
  have h := litesvm_failure_error_normalization
  refine ⟨h.2.1 2 "AccountNotFound" rfl, ?_⟩
  rw [h.1 0 {} (.fieldless 2), h.2.1 2 "AccountNotFound" rfl]

/-! ## Claim C1 -/

/-- C1: for a message needing estimation, (1) a successful estimation
simulation rewrites (or appends) the compute-unit-limit instruction with
`ceil(consumedUnits * 1.1)` and the send proceeds; (2) a failed
estimation with `skipPreflight = false` propagates the error and no send
is attempted; (3) a failed estimation with `skipPreflight = true`
recovers the units consumed from the failed simulation's error context
and proceeds to send with limit `ceil(failureConsumedUnits * 1.1)`. The
buffered value is exactly the ceiling of `11 * u / 10`. -/
theorem estimation_buffer_and_recovery (tx : TransactionMessage) (bh : Nat)
    (hneeds : needsComputeUnitEstimation tx = true) :
    (∀ skip u,
      (executeTransactionMessage skip bh (.ok u) tx).result
        = .ok (updateOrAppendSetComputeUnitLimitInstruction (ceilTimesElevenTenths u)
            (setTransactionMessageLifetimeUsingBlockhash bh tx)) ∧
      ∃ s m, (executeTransactionMessage skip bh (.ok u) tx).sendCalls = [s] ∧
        s.transaction = m ∧
        (∃ j, findSetComputeUnitLimitInstructionIndexAndUnits m
          = some (j, ceilTimesElevenTenths u))) ∧
    (∀ e,
      (executeTransactionMessage false bh (.error e) tx).result = .error e ∧
      (executeTransactionMessage false bh (.error e) tx).sendCalls = []) ∧
    (∀ u,
      ∃ s m, (executeTransactionMessage true bh
          (.error (.failedWhenSimulatingToEstimateComputeLimit u)) tx).sendCalls = [s] ∧
        s.transaction = m ∧
        (∃ j, findSetComputeUnitLimitInstructionIndexAndUnits m
          = some (j, ceilTimesElevenTenths u))) ∧
    (∀ u, 11 * u ≤ 10 * ceilTimesElevenTenths u ∧
      ∀ n, 11 * u ≤ 10 * n → ceilTimesElevenTenths u ≤ n) := by
  refine ⟨fun skip u => ?_, fun e => ?_, fun u => ?_, fun u => ?_⟩
  · constructor
    · simp [executeTransactionMessage, hneeds, estimateAndSetComputeUnitLimit]
    · have hsend : (executeTransactionMessage skip bh (.ok u) tx).sendCalls
          = [{ transaction := updateOrAppendSetComputeUnitLimitInstruction
                 (ceilTimesElevenTenths u)
                 (setTransactionMessageLifetimeUsingBlockhash bh tx),
               commitment := "confirmed", skipPreflight := true }] := by
        simp [executeTransactionMessage, hneeds, estimateAndSetComputeUnitLimit]
      exact ⟨_, _, hsend, rfl, find_updateOrAppend (ceilTimesElevenTenths u)
        (setTransactionMessageLifetimeUsingBlockhash bh tx)⟩
  · cases e <;>
      simp [executeTransactionMessage, hneeds, estimateAndSetComputeUnitLimit]
  · have hsend : (executeTransactionMessage true bh
          (.error (.failedWhenSimulatingToEstimateComputeLimit u)) tx).sendCalls
        = [{ transaction := updateOrAppendSetComputeUnitLimitInstruction
               (ceilTimesElevenTenths u)
               (setTransactionMessageLifetimeUsingBlockhash bh tx),
             commitment := "confirmed", skipPreflight := true }] := by
      simp [executeTransactionMessage, hneeds, estimateAndSetComputeUnitLimit]
    exact ⟨_, _, hsend, rfl, find_updateOrAppend (ceilTimesElevenTenths u)
      (setTransactionMessageLifetimeUsingBlockhash bh tx)⟩
  · refine ⟨?_, fun n h => ?_⟩ <;> simp [ceilTimesElevenTenths] <;> omega

/-- Witness for C1 at an empty message (which needs estimation), with
blockhash 7, estimate 100, and failure recovery at 200 consumed units. -/
theorem estimation_buffer_and_recovery_witness :
    (executeTransactionMessage false 7 (.ok 100) {}).result
      = .ok (updateOrAppendSetComputeUnitLimitInstruction (ceilTimesElevenTenths 100)
          (setTransactionMessageLifetimeUsingBlockhash 7 {})) ∧
    (executeTransactionMessage false 7 (.error (.otherError 3)) {}).sendCalls = [] ∧
    (∃ s m, (executeTransactionMessage true 7
        (.error (.failedWhenSimulatingToEstimateComputeLimit 200)) {}).sendCalls = [s] ∧
      s.transaction = m ∧
      (∃ j, findSetComputeUnitLimitInstructionIndexAndUnits m
        = some (j, ceilTimesElevenTenths 200))) := by
  have h := estimation_buffer_and_recovery {} 7 rfl
  exact ⟨(h.1 false 100).1, (h.2.1 (.otherError 3)).2, h.2.2.1 200⟩

/-! ## Claim C2 -/

/-- C2: every send issued by the RPC executor leaf carries
`skipPreflight = configured skipPreflight OR needs-estimation`; and for
a message with an explicit (non-sentinel, non-maximum) compute-unit
limit, no estimation simulation occurs and the send's `skipPreflight`
equals the configured value. -/
theorem send_skipPreflight_flag :
    (∀ skip bh sim tx s,
      s ∈ (executeTransactionMessage skip bh sim tx).sendCalls →
      s.skipPreflight = (skip || needsComputeUnitEstimation tx)) ∧
    (∀ skip bh sim tx i u,
      findSetComputeUnitLimitInstructionIndexAndUnits tx = some (i, u) →
      u ≠ PROVISORY_COMPUTE_UNIT_LIMIT → u ≠ MAX_COMPUTE_UNIT_LIMIT →
      (executeTransactionMessage skip bh sim tx).estimationSimulations = 0 ∧
      (executeTransactionMessage skip bh sim tx).sendCalls
        = [{ transaction := setTransactionMessageLifetimeUsingBlockhash bh tx,
             commitment := "confirmed", skipPreflight := skip }]) := by
  constructor
  · intro skip bh sim tx s hs
    by_cases hneeds : needsComputeUnitEstimation tx = true
    · rcases hest : estimateAndSetComputeUnitLimit
          (setTransactionMessageLifetimeUsingBlockhash bh tx) sim skip with e | m
      · simp [executeTransactionMessage, hneeds, hest] at hs
      · simp [executeTransactionMessage, hneeds, hest] at hs
        rw [hs, hneeds]
        simp
    · have hfalse : needsComputeUnitEstimation tx = false :=
        Bool.not_eq_true _ ▸ Bool.of_not_eq_true hneeds
      simp [executeTransactionMessage, hfalse] at hs
      rw [hs, hfalse]
      simp
  · intro skip bh sim tx i u hfind h0 hmax
    have hfalse : needsComputeUnitEstimation tx = false := by
      unfold needsComputeUnitEstimation
      rw [hfind]
      simp [h0, hmax]
    simp [executeTransactionMessage, hfalse]

/-- Witness for C2 at a message with an explicit limit of 5000 units and
configured `skipPreflight = false`. -/
theorem send_skipPreflight_flag_witness :
    (executeTransactionMessage false 7 (.ok 100)
        { instructions := [Instruction.setComputeUnitLimit 5000] }).estimationSimulations
      = 0 ∧
    (executeTransactionMessage false 7 (.ok 100)
        { instructions := [Instruction.setComputeUnitLimit 5000] }).sendCalls
      = [{ transaction := setTransactionMessageLifetimeUsingBlockhash 7
             { instructions := [Instruction.setComputeUnitLimit 5000] },
           commitment := "confirmed", skipPreflight := false }] :=
  send_skipPreflight_flag.2 false 7 (.ok 100)
    { instructions := [Instruction.setComputeUnitLimit 5000] } 0 5000 rfl
    (by decide) (by decide)

/-! ## Claim C7 -/

/-- Reduction of `Except` bind on a success value. -/
lemma except_bind_ok {ε α β : Type} (a : α) (f : α → Except ε β) :
    (Except.ok a >>= f) = f a := rfl

/-- Reduction of `Except` bind on an error value. -/
lemma except_bind_error {ε α β : Type} (e : ε) (f : α → Except ε β) :
    ((Except.error e : Except ε α) >>= f) = Except.error e := rfl

/-- The assert passes exactly on a successful single result, returning
that result. -/
lemma assertSuccessfulSingle_ok {r : TransactionPlanResult} {m : TransactionMessage}
    (h : assertIsSuccessfulSingleTransactionPlanResult r = .ok m) :
    r = .single m .successful := by
  cases r with
  | single m' st =>
      cases st with
      | successful =>
          simp [assertIsSuccessfulSingleTransactionPlanResult] at h
          rw [h]
      | failed e => simp [assertIsSuccessfulSingleTransactionPlanResult] at h
      | canceled => simp [assertIsSuccessfulSingleTransactionPlanResult] at h
  | sequentialNode rs => simp [assertIsSuccessfulSingleTransactionPlanResult] at h
  | parallelNode rs => simp [assertIsSuccessfulSingleTransactionPlanResult] at h

/-- C7: `sendTransaction` asserts that the planned transaction plan is
singular and that the execution result is a successful single result:
(1) whenever the planner's fan-out is not a single plan, the call fails
with the assertion error; (2) an `ok` return implies the executor
produced a successful single result carrying exactly the returned
message; (3) whenever the executor never yields a successful single
result, the call fails. -/
theorem sendTransaction_single_successful :
    (∀ (p : Option String) (pl : InstructionPlan → TransactionPlan)
        (ex : TransactionPlan → TransactionPlanResult) (x : Instructionish),
      (∀ m, pl (getInstructionPlan x) ≠ TransactionPlan.single m) →
      sendTransaction p pl ex (.instructions x)
        = .error (.assertionFailed "Expected a single transaction plan")) ∧
    (∀ (p : Option String) (pl : InstructionPlan → TransactionPlan)
        (ex : TransactionPlan → TransactionPlanResult) (input : SendTransactionInput) m,
      sendTransaction p pl ex input = .ok m →
      ∃ tp, ex tp = TransactionPlanResult.single m .successful) ∧
    (∀ (p : Option String) (pl : InstructionPlan → TransactionPlan)
        (ex : TransactionPlan → TransactionPlanResult) (input : SendTransactionInput),
      (∀ tp m, ex tp ≠ TransactionPlanResult.single m .successful) →
      ∃ err, sendTransaction p pl ex input = .error err) := by
  refine ⟨?_, ?_, ?_⟩
  · intro p pl ex x hnot
    rcases hpl : pl (getInstructionPlan x) with m | ps | ps
    · exact absurd hpl (hnot m)
    · simp [sendTransaction, hpl, assertIsSingleTransactionPlan, except_bind_error]
    · simp [sendTransaction, hpl, assertIsSingleTransactionPlan, except_bind_error]
  · intro p pl ex input m h
    cases input with
    | message m0 =>
        rcases hfp : getTransactionMessageWithFeePayer m0 p with e | m1
        · simp [sendTransaction, hfp, except_bind_error] at h
        · simp [sendTransaction, hfp, except_bind_ok] at h
          exact ⟨singleTransactionPlan m1, assertSuccessfulSingle_ok h⟩
    | instructions x =>
        rcases hpl : pl (getInstructionPlan x) with m1 | ps | ps
        · simp [sendTransaction, hpl, assertIsSingleTransactionPlan,
            except_bind_ok] at h
          exact ⟨TransactionPlan.single m1, assertSuccessfulSingle_ok h⟩
        · simp [sendTransaction, hpl, assertIsSingleTransactionPlan,
            except_bind_error] at h
        · simp [sendTransaction, hpl, assertIsSingleTransactionPlan,
            except_bind_error] at h
  · intro p pl ex input hnot
    cases input with
    | message m0 =>
        rcases hfp : getTransactionMessageWithFeePayer m0 p with e | m1
        · exact ⟨e, by simp [sendTransaction, hfp, except_bind_error]⟩
        · refine ⟨.assertionFailed
            "Expected a successful single transaction plan result", ?_⟩
          rcases hex : ex (singleTransactionPlan m1) with ⟨m2, st⟩ | rs | rs
          · cases st with
            | successful => exact absurd hex (hnot _ m2)
            | failed e2 =>
                simp [sendTransaction, hfp, except_bind_ok, hex,
                  assertIsSuccessfulSingleTransactionPlanResult]
            | canceled =>
                simp [sendTransaction, hfp, except_bind_ok, hex,
                  assertIsSuccessfulSingleTransactionPlanResult]
          · simp [sendTransaction, hfp, except_bind_ok, hex,
              assertIsSuccessfulSingleTransactionPlanResult]
          · simp [sendTransaction, hfp, except_bind_ok, hex,
              assertIsSuccessfulSingleTransactionPlanResult]
    | instructions x =>
        rcases hpl : pl (getInstructionPlan x) with m1 | ps | ps
        · refine ⟨.assertionFailed
            "Expected a successful single transaction plan result", ?_⟩
          rcases hex : ex (TransactionPlan.single m1) with ⟨m2, st⟩ | rs | rs
          · cases st with
            | successful => exact absurd hex (hnot _ m2)
            | failed e2 =>
                simp [sendTransaction, hpl, assertIsSingleTransactionPlan,
                  except_bind_ok, hex, assertIsSuccessfulSingleTransactionPlanResult]
            | canceled =>
                simp [sendTransaction, hpl, assertIsSingleTransactionPlan,
                  except_bind_ok, hex, assertIsSuccessfulSingleTransactionPlanResult]
          · simp [sendTransaction, hpl, assertIsSingleTransactionPlan,
              except_bind_ok, hex, assertIsSuccessfulSingleTransactionPlanResult]
          · simp [sendTransaction, hpl, assertIsSingleTransactionPlan,
              except_bind_ok, hex, assertIsSuccessfulSingleTransactionPlanResult]
        · exact ⟨.assertionFailed "Expected a single transaction plan",
            by simp [sendTransaction, hpl, assertIsSingleTransactionPlan,
              except_bind_error]⟩
        · exact ⟨.assertionFailed "Expected a single transaction plan",
            by simp [sendTransaction, hpl, assertIsSingleTransactionPlan,
              except_bind_error]⟩

/-- Witness for C7: a planner that fans a single instruction out into a
two-transaction sequential plan makes `sendTransaction` fail with the
singular-plan assertion, and an executor that never succeeds makes it
fail as well. -/
theorem sendTransaction_single_successful_witness :
    (sendTransaction none
        (fun _ => TransactionPlan.sequentialNode
          [TransactionPlan.single {}, TransactionPlan.single {}])
        (fun _ => TransactionPlanResult.single {} .successful)
        (.instructions (.one (.other "prog" [])))
      = .error (.assertionFailed "Expected a single transaction plan")) ∧
    (∃ err, sendTransaction (some "q")
        (fun _ => TransactionPlan.single {})
        (fun _ => TransactionPlanResult.single {} .canceled)
        (.message { feePayer := some "p" })
      = .error err) := by
  constructor
  · exact sendTransaction_single_successful.1 none _ _ (.one (.other "prog" []))
      (fun m h => by simp at h)
  · exact sendTransaction_single_successful.2.2 (some "q")
      (fun _ => TransactionPlan.single {})
      (fun _ => TransactionPlanResult.single {} .canceled)
      (.message { feePayer := some "p" })
      (fun tp m h => by simp at h)

/-! ## Claim C8 -/

/-- C8: installing the default planner-and-executor plugin on a client
with RPC capabilities but no payer anywhere (neither in the config nor
on the client) fails synchronously at installation time with the
missing-payer error — no planner or executor value is ever produced;
the LiteSVM planner plugin behaves the same way. -/
theorem install_missing_payer_throws (config : RpcPlannerExecutorConfig)
    (client : ClientState)
    (hrpc : client.hasRpc = true) (hsub : client.hasRpcSubscriptions = true)
    (hc : config.payer = none) (hp : client.payer = none) :
    defaultTransactionPlannerAndExecutorFromRpc config client
      = .error (.assertionFailed
          "A payer is required to create the default transaction planner and executor") ∧
    litesvmTransactionPlannerInstall config.payer client.payer
      = .error (.assertionFailed
          "A payer is required to create the LiteSVM transaction planner") := by
  constructor
  · simp [defaultTransactionPlannerAndExecutorFromRpc, hrpc, hsub, hc, hp, Option.orElse]
  · simp [litesvmTransactionPlannerInstall, hc, hp, Option.orElse]

/-- Witness for C8 at a concrete payer-less client with RPC installed. -/
theorem install_missing_payer_throws_witness :
    defaultTransactionPlannerAndExecutorFromRpc {}
        { hasRpc := true, hasRpcSubscriptions := true }
      = .error (.assertionFailed
          "A payer is required to create the default transaction planner and executor") ∧
    litesvmTransactionPlannerInstall none none
      = .error (.assertionFailed
          "A payer is required to create the LiteSVM transaction planner") :=
  install_missing_payer_throws {} { hasRpc := true, hasRpcSubscriptions := true }
    rfl rfl rfl rfl

/-! ## Claim C9 -/

/-- C9: a message that already carries a fee payer is preserved
unchanged — even when the client has a payer configured — and the whole
`sendTransaction` call plans exactly that unchanged message; the
client's payer is attached only to messages lacking one; and when both
are absent the call throws. -/
theorem feePayer_resolution :
    (∀ (m : TransactionMessage) (p : Option String) fp, m.feePayer = some fp →
      getTransactionMessageWithFeePayer m p = .ok m) ∧
    (∀ (m : TransactionMessage) q, m.feePayer = none →
      getTransactionMessageWithFeePayer m (some q)
        = .ok (setTransactionMessageFeePayerSigner q m)) ∧
    (∀ (m : TransactionMessage), m.feePayer = none →
      getTransactionMessageWithFeePayer m none = .error .missingFeePayer) ∧
    (∀ (q : String) (pl : InstructionPlan → TransactionPlan)
        (ex : TransactionPlan → TransactionPlanResult) (m : TransactionMessage) fp,
      m.feePayer = some fp →
      sendTransaction (some q) pl ex (.message m)
        = assertIsSuccessfulSingleTransactionPlanResult (ex (singleTransactionPlan m))) := by
  refine ⟨fun m p fp h => ?_, fun m q h => ?_, fun m h => ?_, fun q pl ex m fp h => ?_⟩
  · simp [getTransactionMessageWithFeePayer, h]
  · simp [getTransactionMessageWithFeePayer, h]
  · simp [getTransactionMessageWithFeePayer, h]
  · have hfp : getTransactionMessageWithFeePayer m (some q) = .ok m := by
      simp [getTransactionMessageWithFeePayer, h]
    simp [sendTransaction, hfp, except_bind_ok]

/-- Witness for C9 at a message already carrying fee payer `"alice"`
while the client payer is `"bob"`. -/
theorem feePayer_resolution_witness :
    getTransactionMessageWithFeePayer { feePayer := some "alice" } (some "bob")
      = .ok { feePayer := some "alice" } ∧
    getTransactionMessageWithFeePayer {} (some "bob")
      = .ok (setTransactionMessageFeePayerSigner "bob" {}) ∧
    getTransactionMessageWithFeePayer {} none = .error .missingFeePayer :=
  ⟨feePayer_resolution.1 { feePayer := some "alice" } (some "bob") "alice" rfl,
   feePayer_resolution.2.1 {} "bob" rfl,
   feePayer_resolution.2.2.1 {} rfl⟩

/-! ## Claim C4 -/

/-- The limiter invariant: never more than `max` in flight; when a slot
is free the queue is empty (saturation — `process()` always refills);
and the started calls followed by the queued calls are exactly the
arrived calls in arrival order (FIFO start order, no call dropped). -/
def LimiterInv (maxConcurrency : Nat) (s : LimiterState) : Prop :=
  s.running.length ≤ maxConcurrency ∧
  (s.running.length < maxConcurrency → s.queue = []) ∧
  s.started ++ s.queue = s.arrived

/-- `process()` does nothing when already running at max concurrency. -/
lemma processStep_full (maxConcurrency : Nat) (t : LimiterState)
    (h : t.running.length ≥ maxConcurrency) :
    processStep maxConcurrency t = t := by
  unfold processStep
  rw [if_pos h]

/-- `process()` does nothing when the queue is empty. -/
lemma processStep_nilQueue (maxConcurrency : Nat) (t : LimiterState)
    (h : t.queue = []) :
    processStep maxConcurrency t = t := by
  unfold processStep
  rw [h]
  simp

/-- `process()` starts the call at the front of the queue when a slot is
free and the queue is nonempty. -/
lemma processStep_start (maxConcurrency : Nat) (t : LimiterState)
    (h : ¬ t.running.length ≥ maxConcurrency) (qh : Nat) (qt : List Nat)
    (hq : t.queue = qh :: qt) :
    processStep maxConcurrency t
      = { t with running := t.running ++ [qh], queue := qt,
                 started := t.started ++ [qh] } := by
  unfold processStep
  rw [if_neg h, hq]

/-- A single `process()` pass establishes the limiter invariant from the
weaker intermediate condition that holds right after a call was enqueued
or a completed invocation was removed. -/
lemma processStep_establishes (maxConcurrency : Nat) (t : LimiterState)
    (h1 : t.running.length ≤ maxConcurrency)
    (h2 : t.running.length < maxConcurrency →
      (t.queue.drop 1 = [] ∨ t.running.length + 1 = maxConcurrency))
    (h3 : t.started ++ t.queue = t.arrived) :
    LimiterInv maxConcurrency (processStep maxConcurrency t) := by
  by_cases hge : t.running.length ≥ maxConcurrency
  · rw [processStep_full maxConcurrency t hge]
    exact ⟨h1, fun hlt => absurd hlt (Nat.not_lt_of_ge hge), h3⟩
  · rcases hq : t.queue with _ | ⟨qh, qt⟩
    · rw [processStep_nilQueue maxConcurrency t hq]
      exact ⟨h1, fun _ => hq, h3⟩
    · rw [processStep_start maxConcurrency t hge qh qt hq]
      have hlt : t.running.length < maxConcurrency := Nat.lt_of_not_ge hge
      refine ⟨?_, ?_, ?_⟩
      · show (t.running ++ [qh]).length ≤ maxConcurrency
        rw [List.length_append]
        simpa using hlt
      · intro hlt2
        have hlt2' : t.running.length + 1 < maxConcurrency := by
          have : (t.running ++ [qh]).length = t.running.length + 1 := by
            rw [List.length_append]
            rfl
          rw [this] at hlt2
          exact hlt2
        show qt = []
        rcases h2 hlt with hdrop | heq
        · rw [hq] at hdrop
          simpa using hdrop
        · omega
      · show (t.started ++ [qh]) ++ qt = t.arrived
        rw [List.append_assoc]
        show t.started ++ (qh :: qt) = t.arrived
        rw [← hq]
        exact h3

/-- Every valid limiter step preserves the limiter invariant. -/
lemma limiterStep_inv (maxConcurrency : Nat) {s s' : LimiterState} {e : LimiterEvent}
    (hinv : LimiterInv maxConcurrency s)
    (h : limiterStep maxConcurrency s e = some s') :
    LimiterInv maxConcurrency s' := by
  obtain ⟨hlen, hsat, hfifo⟩ := hinv
  cases e with
  | call id =>
      simp only [limiterStep, Option.some.injEq] at h
      subst h
      apply processStep_establishes
      · exact hlen
      · intro hlt
        have hq : s.queue = [] := hsat hlt
        left
        show (s.queue ++ [id]).drop 1 = []
        rw [hq]
        rfl
      · show s.started ++ (s.queue ++ [id]) = s.arrived ++ [id]
        rw [← List.append_assoc, hfifo]
  | complete id ok =>
      simp only [limiterStep] at h
      by_cases hmem : id ∈ s.running
      · rw [if_pos hmem, Option.some.injEq] at h
        subst h
        have herase : (s.running.erase id).length = s.running.length - 1 :=
          List.length_erase_of_mem hmem
        have hpos : 0 < s.running.length := List.length_pos_of_mem hmem
        apply processStep_establishes
        · show (s.running.erase id).length ≤ maxConcurrency
          omega
        · intro hlt
          rcases Nat.lt_or_ge s.running.length maxConcurrency with hlt2 | hge2
          · left
            show s.queue.drop 1 = []
            rw [hsat hlt2]
            rfl
          · right
            show (s.running.erase id).length + 1 = maxConcurrency
            have hmax : s.running.length = maxConcurrency := Nat.le_antisymm hlen hge2
            omega
        · exact hfifo
      · rw [if_neg hmem] at h
        exact absurd h (by simp)

/-- The freshly-initialized limiter satisfies the invariant. -/
lemma limiterInit_inv (maxConcurrency : Nat) : LimiterInv maxConcurrency limiterInit :=
  ⟨Nat.zero_le _, fun _ => rfl, rfl⟩

/-- The invariant holds along every valid run of the limiter. -/
lemma limiterRun_inv (maxConcurrency : Nat) :
    ∀ (events : List LimiterEvent) (s s' : LimiterState),
      LimiterInv maxConcurrency s →
      limiterRun maxConcurrency s events = some s' →
      LimiterInv maxConcurrency s'
  | [], s, s', hinv, h => by
      simp only [limiterRun, Option.some.injEq] at h
      rw [← h]
      exact hinv
  | e :: es, s, s', hinv, h => by
      unfold limiterRun at h
      rcases hstep : limiterStep maxConcurrency s e with _ | next
      · rw [hstep] at h
        exact absurd h (by simp)
      · rw [hstep] at h
        exact limiterRun_inv maxConcurrency es next s'
          (limiterStep_inv maxConcurrency hinv hstep) h

/-- C4: along every valid event sequence of `limitFunction`,
(1) at most `maxConcurrency` invocations are in flight at any time;
(2) started calls followed by queued calls equal the arrived calls in
arrival order — queued calls start in FIFO order and none is dropped;
(3) whenever a slot is free the queue is empty, so a queued call waits
only on the concurrency cap; and (4) any completion — resolution or
rejection alike — while the queue is nonempty frees a slot that
immediately starts the next queued call. -/
theorem limitFunction_concurrency (maxConcurrency : Nat)
    (events : List LimiterEvent) (s : LimiterState)
    (h : limiterRun maxConcurrency limiterInit events = some s) :
    s.running.length ≤ maxConcurrency ∧
    s.started ++ s.queue = s.arrived ∧
    (s.running.length < maxConcurrency → s.queue = []) ∧
    (∀ id ok s', s.queue ≠ [] →
      limiterStep maxConcurrency s (.complete id ok) = some s' →
      s'.started = s.started ++ s.queue.take 1 ∧
      s'.running.length = s.running.length ∧
      s'.queue = s.queue.drop 1) := by
  obtain ⟨hlen, hsat, hfifo⟩ :=
    limiterRun_inv maxConcurrency events limiterInit s (limiterInit_inv maxConcurrency) h
  refine ⟨hlen, hfifo, hsat, ?_⟩
  intro id ok s' hq hstep
  rcases hqe : s.queue with _ | ⟨qh, qt⟩
  · exact absurd hqe hq
  simp only [limiterStep] at hstep
  by_cases hmem : id ∈ s.running
  · rw [if_pos hmem, Option.some.injEq] at hstep
    have herase : (s.running.erase id).length = s.running.length - 1 :=
      List.length_erase_of_mem hmem
    have hpos : 0 < s.running.length := List.length_pos_of_mem hmem
    have hlenmax : s.running.length = maxConcurrency := by
      rcases Nat.lt_or_ge s.running.length maxConcurrency with hlt | hge
      · exact absurd (hsat hlt) (by simp [hqe])
      · exact Nat.le_antisymm hlen hge
    rw [processStep_start maxConcurrency
      { running := s.running.erase id, queue := s.queue,
        started := s.started, arrived := s.arrived }
      (show ¬ (s.running.erase id).length ≥ maxConcurrency by omega)
      qh qt hqe] at hstep
    rw [← hstep]
    refine ⟨rfl, ?_, rfl⟩
    show (s.running.erase id ++ [qh]).length = s.running.length
    rw [List.length_append, herase]
    simp
    omega
  · rw [if_neg hmem] at hstep
    exact absurd hstep (by simp)

/-- Witness for C4: with `maxConcurrency = 1`, two calls and one
completion, the second call is queued and started only when the first
completes; the reached state satisfies the concurrency bound and the
FIFO/no-drop law. -/
theorem limitFunction_concurrency_witness :
    ({ running := [1], queue := [], started := [0, 1],
       arrived := [0, 1] } : LimiterState).running.length ≤ 1 ∧
    ({ running := [1], queue := [], started := [0, 1],
       arrived := [0, 1] } : LimiterState).started
        ++ ({ running := [1], queue := [], started := [0, 1],
              arrived := [0, 1] } : LimiterState).queue
      = [0, 1] :=
  have h := limitFunction_concurrency 1
    [.call 0, .call 1, .complete 0 true]
    { running := [1], queue := [], started := [0, 1], arrived := [0, 1] }
    (by rfl)
  ⟨h.1, h.2.1⟩

end KitPlugins
